import Mathlib

/-!
Verification of the Game-of-Life core of this repository.

The WebGPU compute shader (`computeMain` in gol.js and in the unnamed WebGPU
variant) is embedded with machine integers modelled as `Nat` reduced modulo
2^32 wherever the shader performs u32 arithmetic.  Cell buffers are modelled
as total functions from flat index to stored value.  The scalar per-frame
state machine of gol-webgl.js (pause, the two wall-clock triggers, zoom and
resize) is embedded as explicit state passing, with the float computations
carried out over `ℚ`.
-/

set_option autoImplicit false

/-- 2^32, the modulus of WGSL u32 arithmetic. -/
def U32 : Nat := 4294967296

/-- The uniform block of the compute shader: grid width and height. -/
structure Uniforms where
  width : Nat
  height : Nat

/-- Conversion of a (signed) shader constant to u32, as WGSL `u32(dx)`:
two's-complement reinterpretation, i.e. reduction modulo 2^32. -/
def u32ofInt (d : Int) : Nat := (d % (4294967296 : Int)).toNat

/-- `getCellState` from the WGSL compute shader: wrap the incoming u32
coordinates by `(c + size) % size` (all arithmetic mod 2^32) and read the
input buffer at the flat index `yWrapped * width + xWrapped`. -/
def getCellState (input : Nat → Nat) (u : Uniforms) (x y : Nat) : Nat :=
  let xWrapped := ((x + u.width) % U32) % u.width
  let yWrapped := ((y + u.height) % U32) % u.height
  input ((yWrapped * u.width % U32 + xWrapped) % U32)

/-- The eight `(dx, dy)` offsets visited by the shader's double loop
(`dy` outer, `dx` inner, skipping `(0,0)`). -/
def neighborOffsets : List (Int × Int) :=
  [(-1, -1), (0, -1), (1, -1), (-1, 0), (1, 0), (-1, 1), (0, 1), (1, 1)]

/-- The `neighbors` accumulation of `computeMain`: u32 sum of
`getCellState(x + u32(dx), y + u32(dy))` over the eight offsets. -/
def countNeighbors (input : Nat → Nat) (u : Uniforms) (x y : Nat) : Nat :=
  neighborOffsets.foldl
    (fun acc d =>
      (acc + getCellState input u ((x + u32ofInt d.1) % U32) ((y + u32ofInt d.2) % U32)) % U32)
    0

/-- `computeMain` from the WGSL compute shader, seen as the value the
invocation at `(x, y)` writes to `output[y * width + x]`; `none` models the
early return of the out-of-range guard (no write). -/
def computeMain (input : Nat → Nat) (u : Uniforms) (x y : Nat) : Option Nat :=
  if u.width ≤ x ∨ u.height ≤ y then none
  else
    let neighbors := countNeighbors input u x y
    let index := (y * u.width % U32 + x) % U32
    let currentState := input index
    some (if currentState = 1 then (if neighbors = 2 ∨ neighbors = 3 then 1 else 0)
          else if neighbors = 3 then 1 else 0)

/-- The spec's toroidal coordinate: `((x + dx + width) mod width)`, computed
in `ℤ` and returned as a `Nat`. -/
def wrapIdx (x : Nat) (d : Int) (w : Nat) : Nat := (((x : Int) + d + w) % w).toNat

/-- The spec's eight-neighbor live count: plain (unbounded) sum of the input
buffer at the spec-wrapped coordinates. -/
def specNeighbors (input : Nat → Nat) (w h x y : Nat) : Nat :=
  neighborOffsets.foldl
    (fun acc d => acc + input (wrapIdx y d.2 h * w + wrapIdx x d.1 w)) 0

/-! ### Arithmetic lemmas for the wrapped coordinates -/

theorem u32ofInt_neg_one : u32ofInt (-1) = U32 - 1 := by decide

theorem u32ofInt_zero : u32ofInt 0 = 0 := rfl

theorem u32ofInt_one : u32ofInt 1 = 1 := rfl

theorem wrapIdx_neg_one {w : Nat} (x : Nat) (hw : 1 ≤ w) :
    wrapIdx x (-1) w = (x + w - 1) % w := by
  unfold wrapIdx
  have h1 : (x : Int) + -1 + w = ((x + w - 1 : Nat) : Int) := by omega
  rw [h1, ← Int.natCast_mod, Int.toNat_natCast]

theorem wrapIdx_zero {w : Nat} (x : Nat) (hx : x < w) : wrapIdx x 0 w = x := by
  unfold wrapIdx
  have h1 : (x : Int) + 0 + w = ((x + w : Nat) : Int) := by omega
  rw [h1, ← Int.natCast_mod, Int.toNat_natCast, Nat.add_mod_right, Nat.mod_eq_of_lt hx]

theorem wrapIdx_one {w : Nat} (x : Nat) : wrapIdx x 1 w = (x + 1) % w := by
  unfold wrapIdx
  have h1 : (x : Int) + 1 + w = ((x + 1 + w : Nat) : Int) := by omega
  rw [h1, ← Int.natCast_mod, Int.toNat_natCast, Nat.add_mod_right]

theorem wrapIdx_lt {w : Nat} (x : Nat) (d : Int) (hw : 1 ≤ w)
    (hd : d = -1 ∨ d = 0 ∨ d = 1) (hx : x < w) : wrapIdx x d w < w := by
  rcases hd with hd | hd | hd <;> subst hd
  · rw [wrapIdx_neg_one x hw]; exact Nat.mod_lt _ hw
  · rw [wrapIdx_zero x hx]; exact hx
  · rw [wrapIdx_one x]; exact Nat.mod_lt _ hw

/-- The u32 wraparound of `x + u32(d)` followed by `(· + w) % 2^32 % w`, as
performed by the shader, lands on the spec's toroidal coordinate. -/
theorem coordWrap_eq {w : Nat} (x : Nat) (d : Int) (hw : 1 ≤ w)
    (hw2 : 2 * w ≤ U32) (hx : x < w) (hd : d = -1 ∨ d = 0 ∨ d = 1) :
    (((x + u32ofInt d) % U32 + w) % U32) % w = wrapIdx x d w := by
  have hU : U32 = 4294967296 := rfl
  rcases hd with hd | hd | hd <;> subst hd
  · rw [u32ofInt_neg_one, wrapIdx_neg_one x hw]
    have h1 : ((x + (U32 - 1)) % U32 + w) % U32 = x + w - 1 := by
      rw [hU] at hw2 ⊢; omega
    rw [h1]
  · rw [u32ofInt_zero, wrapIdx_zero x hx]
    have h1 : ((x + 0) % U32 + w) % U32 = x + w := by
      rw [hU] at hw2 ⊢; omega
    rw [h1, Nat.add_mod_right, Nat.mod_eq_of_lt hx]
  · rw [u32ofInt_one, wrapIdx_one x]
    by_cases hc : x + 1 + w = U32
    · have h1 : ((x + 1) % U32 + w) % U32 = 0 := by
        rw [hU] at hw2 hc ⊢; omega
      have h2 : x + 1 = w := by rw [hU] at hw2 hc; omega
      rw [h1, h2, Nat.zero_mod, Nat.mod_self]
    · have h1 : ((x + 1) % U32 + w) % U32 = x + 1 + w := by
        rw [hU] at hw2 hc ⊢; omega
      rw [h1, Nat.add_mod_right]

/-- Size hypotheses under which the shader's u32 arithmetic is exact:
nonempty grid, each dimension at most 2^31, and the whole buffer
addressable with u32 flat indices. -/
def GridFits (u : Uniforms) : Prop :=
  1 ≤ u.width ∧ 1 ≤ u.height ∧ 2 * u.width ≤ U32 ∧ 2 * u.height ≤ U32 ∧
    u.width * u.height ≤ U32

theorem flatIdx_lt {w h a b : Nat} (ha : a < w) (hb : b < h) :
    b * w + a < w * h := by
  calc b * w + a < b * w + w := by omega
    _ = (b + 1) * w := by ring
    _ ≤ h * w := Nat.mul_le_mul_right w hb
    _ = w * h := Nat.mul_comm h w

/-- The neighbor read of the compute shader equals the input buffer at the
spec's toroidal coordinates. -/
theorem getCellState_eq (input : Nat → Nat) (u : Uniforms) (hu : GridFits u)
    {x y : Nat} (hx : x < u.width) (hy : y < u.height) (d e : Int)
    (hd : d = -1 ∨ d = 0 ∨ d = 1) (he : e = -1 ∨ e = 0 ∨ e = 1) :
    getCellState input u ((x + u32ofInt d) % U32) ((y + u32ofInt e) % U32)
      = input (wrapIdx y e u.height * u.width + wrapIdx x d u.width) := by
  obtain ⟨hw1, hh1, hw2, hh2, hwh⟩ := hu
  simp only [getCellState]
  congr 1
  rw [coordWrap_eq x d hw1 hw2 hx hd, coordWrap_eq y e hh1 hh2 hy he]
  have hxw := wrapIdx_lt x d hw1 hd hx
  have hyh := wrapIdx_lt y e hh1 he hy
  have hlt : wrapIdx y e u.height * u.width + wrapIdx x d u.width
      < u.width * u.height := flatIdx_lt hxw hyh
  have h1 : wrapIdx y e u.height * u.width % U32 = wrapIdx y e u.height * u.width :=
    Nat.mod_eq_of_lt (by omega)
  rw [h1, Nat.mod_eq_of_lt (by omega)]

/-- With a 0/1-valued buffer the u32 accumulation of `countNeighbors` never
wraps and equals the spec's plain eight-neighbor sum. -/
theorem countNeighbors_eq (input : Nat → Nat) (u : Uniforms) (hu : GridFits u)
    {x y : Nat} (hx : x < u.width) (hy : y < u.height)
    (hb : ∀ i, input i ≤ 1) :
    countNeighbors input u x y = specNeighbors input u.width u.height x y := by
  have g := getCellState_eq input u hu hx hy
  simp only [countNeighbors, specNeighbors, neighborOffsets,
    List.foldl_cons, List.foldl_nil]
  rw [g (-1) (-1) (by norm_num) (by norm_num), g 0 (-1) (by norm_num) (by norm_num),
    g 1 (-1) (by norm_num) (by norm_num), g (-1) 0 (by norm_num) (by norm_num),
    g 1 0 (by norm_num) (by norm_num), g (-1) 1 (by norm_num) (by norm_num),
    g 0 1 (by norm_num) (by norm_num), g 1 1 (by norm_num) (by norm_num)]
  have b1 := hb (wrapIdx y (-1) u.height * u.width + wrapIdx x (-1) u.width)
  have b2 := hb (wrapIdx y (-1) u.height * u.width + wrapIdx x 0 u.width)
  have b3 := hb (wrapIdx y (-1) u.height * u.width + wrapIdx x 1 u.width)
  have b4 := hb (wrapIdx y 0 u.height * u.width + wrapIdx x (-1) u.width)
  have b5 := hb (wrapIdx y 0 u.height * u.width + wrapIdx x 1 u.width)
  have b6 := hb (wrapIdx y 1 u.height * u.width + wrapIdx x (-1) u.width)
  have b7 := hb (wrapIdx y 1 u.height * u.width + wrapIdx x 0 u.width)
  have b8 := hb (wrapIdx y 1 u.height * u.width + wrapIdx x 1 u.width)
  have hU : U32 = 4294967296 := rfl
  simp only [hU]
  omega

/-- `computeMain`, for an in-range invocation over a 0/1 buffer, written with
the spec-level neighbor count and flat index. -/
theorem computeMain_eq (input : Nat → Nat) (u : Uniforms) (hu : GridFits u)
    {x y : Nat} (hx : x < u.width) (hy : y < u.height)
    (hb : ∀ i, input i ≤ 1) :
    computeMain input u x y = some
      (if input (y * u.width + x) = 1 then
        (if specNeighbors input u.width u.height x y = 2 ∨
            specNeighbors input u.width u.height x y = 3 then 1 else 0)
       else if specNeighbors input u.width u.height x y = 3 then 1 else 0) := by
  obtain ⟨hw1, hh1, hw2, hh2, hwh⟩ := hu
  simp only [computeMain]
  rw [if_neg (by omega)]
  have hflat : y * u.width + x < u.width * u.height := flatIdx_lt hx hy
  have h1 : y * u.width % U32 = y * u.width := Nat.mod_eq_of_lt (by omega)
  have hidx : (y * u.width % U32 + x) % U32 = y * u.width + x := by
    rw [h1]; exact Nat.mod_eq_of_lt (by omega)
  rw [hidx, countNeighbors_eq input u ⟨hw1, hh1, hw2, hh2, hwh⟩ hx hy hb]

/-- A sample 3x3 buffer: only the center cell (1,1), flat index 4, alive. -/
def sampleInput : Nat → Nat := fun i => if i = 4 then 1 else 0

/-- C1: for every grid (width ≥ 1, height ≥ 1, sizes addressable in u32) and
every in-range cell (x,y) of a 0/1 buffer, the compute shader writes 1 to
(x,y) iff the cell is alive with toroidal neighbor count 2 or 3, or dead
with neighbor count exactly 3; in all other cases it writes 0. -/
theorem C1_update_rule (input : Nat → Nat) (u : Uniforms) (x y : Nat)
    (hu : GridFits u) (hx : x < u.width) (hy : y < u.height)
    (hb : ∀ i, input i ≤ 1) :
    ∃ out, computeMain input u x y = some out ∧
      (out = 1 ↔
        (input (y * u.width + x) = 1 ∧
          (specNeighbors input u.width u.height x y = 2 ∨
           specNeighbors input u.width u.height x y = 3)) ∨
        (input (y * u.width + x) = 0 ∧
          specNeighbors input u.width u.height x y = 3)) ∧
      (out = 0 ∨ out = 1) := by
  refine ⟨_, computeMain_eq input u hu hx hy hb, ?_, ?_⟩
  · have hcell := hb (y * u.width + x)
    split_ifs with h1 h2 h3 <;> first | omega | (rw [false_iff]; omega)
  · split_ifs <;> simp

/-- Witness for C1: on a 3x3 grid with only the center alive, the center
has 0 live neighbors, so the shader writes 0. -/
theorem C1_update_rule_witness :
    (∀ i, sampleInput i ≤ 1) ∧
    (∃ out, computeMain sampleInput ⟨3, 3⟩ 1 1 = some out ∧
      (out = 1 ↔
        (sampleInput (1 * 3 + 1) = 1 ∧
          (specNeighbors sampleInput 3 3 1 1 = 2 ∨
           specNeighbors sampleInput 3 3 1 1 = 3)) ∨
        (sampleInput (1 * 3 + 1) = 0 ∧
          specNeighbors sampleInput 3 3 1 1 = 3)) ∧
      (out = 0 ∨ out = 1)) := by
  have hb : ∀ i, sampleInput i ≤ 1 := by
    intro i; unfold sampleInput; split <;> omega
  exact ⟨hb, C1_update_rule sampleInput ⟨3, 3⟩ 1 1
    (by refine ⟨?_, ?_, ?_, ?_, ?_⟩ <;> norm_num [U32]) (by norm_num) (by norm_num) hb⟩

/-- C2: the shader's neighbor lookup is toroidal: through the u32 wraparound
of `x + u32(dx)` it reads the input at
`((x+dx+width) mod width, (y+dy+height) mod height)`, and the wrapped
coordinates and flat index are always in range. -/
theorem C2_toroidal_lookup (input : Nat → Nat) (u : Uniforms) (x y : Nat)
    (d e : Int) (hu : GridFits u) (hx : x < u.width) (hy : y < u.height)
    (hd : d = -1 ∨ d = 0 ∨ d = 1) (he : e = -1 ∨ e = 0 ∨ e = 1) :
    getCellState input u ((x + u32ofInt d) % U32) ((y + u32ofInt e) % U32)
      = input (wrapIdx y e u.height * u.width + wrapIdx x d u.width) ∧
    wrapIdx x d u.width < u.width ∧ wrapIdx y e u.height < u.height ∧
    wrapIdx y e u.height * u.width + wrapIdx x d u.width < u.width * u.height := by
  obtain ⟨hw1, hh1, hw2, hh2, hwh⟩ := hu
  have hxw := wrapIdx_lt x d hw1 hd hx
  have hyh := wrapIdx_lt y e hh1 he hy
  exact ⟨getCellState_eq input u ⟨hw1, hh1, hw2, hh2, hwh⟩ hx hy d e hd he,
    hxw, hyh, flatIdx_lt hxw hyh⟩

/-- Witness for C2: on the 3x3 sample grid, the (-1,-1) neighbor of (0,0)
is read from (2,2) = (width-1, height-1), through the u32 wraparound. -/
theorem C2_toroidal_lookup_witness :
    getCellState sampleInput ⟨3, 3⟩ ((0 + u32ofInt (-1)) % U32)
        ((0 + u32ofInt (-1)) % U32)
      = sampleInput (wrapIdx 0 (-1) 3 * 3 + wrapIdx 0 (-1) 3) ∧
    wrapIdx 0 (-1) 3 < 3 ∧ wrapIdx 0 (-1) 3 < 3 ∧
    wrapIdx 0 (-1) 3 * 3 + wrapIdx 0 (-1) 3 < 3 * 3 :=
  C2_toroidal_lookup sampleInput ⟨3, 3⟩ 0 0 (-1) (-1)
    (by refine ⟨?_, ?_, ?_, ?_, ?_⟩ <;> norm_num [U32]) (by norm_num) (by norm_num)
    (by norm_num) (by norm_num)

/-- C10: whatever u32 values the input buffer holds, every value the compute
shader writes is 0 or 1. -/
theorem C10_output_boolean (input : Nat → Nat) (u : Uniforms) (x y : Nat)
    (hx : x < u.width) (hy : y < u.height) :
    computeMain input u x y = some 0 ∨ computeMain input u x y = some 1 := by
  simp only [computeMain]
  rw [if_neg (by omega)]
  split_ifs <;> simp

/-- A buffer holding arbitrary (non-boolean) u32 values. -/
def junkInput : Nat → Nat := fun i => 17 * i + 5

/-- Witness for C10: on a junk-valued buffer the write at (2,3) of a 4x4
grid is still 0 or 1. -/
theorem C10_output_boolean_witness :
    computeMain junkInput ⟨4, 4⟩ 2 3 = some 0 ∨
    computeMain junkInput ⟨4, 4⟩ 2 3 = some 1 :=
  C10_output_boolean junkInput ⟨4, 4⟩ 2 3 (by norm_num) (by norm_num)

/-! ### A 2x2 block is a still life (claim C8) -/

/-- Indicator of the two live columns (rows) of a 2x2 block whose anchor
column (row) is `p`, on a ring of size `w`. -/
def blockAxis (w p x : Nat) : Nat := if x = p ∨ x = (p + 1) % w then 1 else 0

/-- The cell value of a grid whose only live cells form a single 2x2 block
anchored at `(p, q)` (toroidally). -/
def blockCell (w h p q x y : Nat) : Nat := blockAxis w p x * blockAxis h q y

/-- The 2x2-block grid as a flat row-major buffer. -/
def blockInput (w h p q : Nat) : Nat → Nat :=
  fun i => blockCell w h p q (i % w) (i / w)

theorem blockInput_flat (w h p q x y : Nat) (hx : x < w) :
    blockInput w h p q (y * w + x) = blockCell w h p q x y := by
  have hw0 : 0 < w := Nat.lt_of_le_of_lt (Nat.zero_le x) hx
  unfold blockInput
  have hm : (y * w + x) % w = x := by
    rw [Nat.mul_comm y w, Nat.mul_add_mod, Nat.mod_eq_of_lt hx]
  have hd : (y * w + x) / w = y := by
    rw [Nat.add_comm, Nat.add_mul_div_right x y hw0, Nat.div_eq_of_lt hx, Nat.zero_add]
  rw [hm, hd]

theorem blockAxis_le_one (w p x : Nat) : blockAxis w p x ≤ 1 := by
  unfold blockAxis; split <;> omega

theorem blockInput_le_one (w h p q : Nat) : ∀ i, blockInput w h p q i ≤ 1 := by
  intro i
  unfold blockInput blockCell blockAxis
  split_ifs <;> simp

theorem pred_mod (w x : Nat) (hw : 1 ≤ w) (hx : x < w) :
    (x + w - 1) % w = if x = 0 then w - 1 else x - 1 := by
  split_ifs with hc
  · have h1 : x + w - 1 = w - 1 := by omega
    rw [h1, Nat.mod_eq_of_lt (by omega)]
  · have h1 : x + w - 1 = (x - 1) + w := by omega
    rw [h1, Nat.add_mod_right, Nat.mod_eq_of_lt (by omega)]

theorem succ_mod (w x : Nat) (hx : x < w) :
    (x + 1) % w = if x = w - 1 then 0 else x + 1 := by
  split_ifs with hc
  · have h1 : x + 1 = w := by omega
    rw [h1, Nat.mod_self]
  · exact Nat.mod_eq_of_lt (by omega)

/-- The number of live block columns among the three consecutive ring
positions `x-1, x, x+1`. -/
def windowCount (w p x : Nat) : Nat :=
  blockAxis w p ((x + w - 1) % w) + blockAxis w p x + blockAxis w p ((x + 1) % w)

/-- On a ring of size at least 3, a 3-window sees at most 2 of the block's
two live positions, and exactly 2 when its center is live. -/
theorem windowCount_spec (w p x : Nat) (hw : 3 ≤ w) (hp : p < w) (hx : x < w) :
    windowCount w p x ≤ 2 ∧ (blockAxis w p x = 1 → windowCount w p x = 2) := by
  have hw1 : 1 ≤ w := by omega
  unfold windowCount blockAxis
  set L := (x + w - 1) % w with hL
  set R := (x + 1) % w with hR
  set P2 := (p + 1) % w with hP2
  have f1 : L ≠ x := by
    rw [hL, pred_mod w x hw1 hx]; split_ifs <;> omega
  have f2 : R ≠ x := by
    rw [hR, succ_mod w x hx]; split_ifs <;> omega
  have f3 : L ≠ R := by
    rw [hL, hR, pred_mod w x hw1 hx, succ_mod w x hx]; split_ifs <;> omega
  have f5 : x ≠ p ∨ R = P2 := by
    by_cases hc : x = p
    · exact Or.inr (by rw [hR, hP2, hc])
    · exact Or.inl hc
  have f6 : x ≠ P2 ∨ L = p := by
    by_cases hc : x = P2
    · refine Or.inr ?_
      rw [hP2, succ_mod w p hp] at hc
      rw [hL, pred_mod w x hw1 hx]
      split_ifs at hc ⊢ <;> omega
    · exact Or.inl hc
  split_ifs <;>
    exact ⟨by omega, fun hcen => by first | exact hcen.elim | omega⟩

/-- The eight-neighbor sum of the block grid factorizes: neighbors plus the
center cell equal the product of the column window count and the row window
count. -/
theorem specNeighbors_block (w h p q x y : Nat) (hw1 : 1 ≤ w) (hh1 : 1 ≤ h)
    (hx : x < w) (hy : y < h) :
    specNeighbors (blockInput w h p q) w h x y + blockCell w h p q x y
      = windowCount w p x * windowCount h q y := by
  have hfl : ∀ (d e : Int), (d = -1 ∨ d = 0 ∨ d = 1) → (e = -1 ∨ e = 0 ∨ e = 1) →
      blockInput w h p q (wrapIdx y e h * w + wrapIdx x d w)
        = blockCell w h p q (wrapIdx x d w) (wrapIdx y e h) :=
    fun d e hd _ => blockInput_flat w h p q _ _ (wrapIdx_lt x d hw1 hd hx)
  simp only [specNeighbors, neighborOffsets, List.foldl_cons, List.foldl_nil]
  rw [hfl (-1) (-1) (by norm_num) (by norm_num), hfl 0 (-1) (by norm_num) (by norm_num),
    hfl 1 (-1) (by norm_num) (by norm_num), hfl (-1) 0 (by norm_num) (by norm_num),
    hfl 1 0 (by norm_num) (by norm_num), hfl (-1) 1 (by norm_num) (by norm_num),
    hfl 0 1 (by norm_num) (by norm_num), hfl 1 1 (by norm_num) (by norm_num)]
  simp only [wrapIdx_neg_one x hw1, wrapIdx_neg_one y hh1, wrapIdx_zero x hx,
    wrapIdx_zero y hy, wrapIdx_one x, wrapIdx_one y]
  unfold blockCell windowCount
  ring

/-- Spec-level still life: applying the Game-of-Life rule to the 2x2 block
grid reproduces the cell value, for every grid at least 3x3. -/
theorem specNext_block (w h p q x y : Nat) (hw : 3 ≤ w) (hh : 3 ≤ h)
    (hp : p < w) (hq : q < h) (hx : x < w) (hy : y < h) :
    (if blockCell w h p q x y = 1 then
       (if specNeighbors (blockInput w h p q) w h x y = 2 ∨
           specNeighbors (blockInput w h p q) w h x y = 3 then 1 else 0)
     else if specNeighbors (blockInput w h p q) w h x y = 3 then 1 else 0)
      = blockCell w h p q x y := by
  have hw1 : 1 ≤ w := by omega
  have hh1 : 1 ≤ h := by omega
  have hfact := specNeighbors_block w h p q x y hw1 hh1 hx hy
  obtain ⟨hA2, hAx⟩ := windowCount_spec w p x hw hp hx
  obtain ⟨hB2, hBy⟩ := windowCount_spec h q y hh hq hy
  have hax := blockAxis_le_one w p x
  have hby := blockAxis_le_one h q y
  unfold blockCell at hfact ⊢
  rcases (by omega : blockAxis w p x = 0 ∨ blockAxis w p x = 1) with h1 | h1 <;>
    rcases (by omega : blockAxis h q y = 0 ∨ blockAxis h q y = 1) with h2 | h2
  · rw [h1, h2] at hfact ⊢
    rcases (by omega : windowCount w p x = 0 ∨ windowCount w p x = 1 ∨
      windowCount w p x = 2) with hA | hA | hA <;>
      rcases (by omega : windowCount h q y = 0 ∨ windowCount h q y = 1 ∨
        windowCount h q y = 2) with hB | hB | hB <;>
      rw [hA, hB] at hfact <;> split_ifs <;> first | omega | assumption
  · rw [h1, h2] at hfact ⊢
    rcases (by omega : windowCount w p x = 0 ∨ windowCount w p x = 1 ∨
      windowCount w p x = 2) with hA | hA | hA <;>
      rw [hA, hBy h2] at hfact <;> split_ifs <;> first | omega | assumption
  · rw [h1, h2] at hfact ⊢
    rcases (by omega : windowCount h q y = 0 ∨ windowCount h q y = 1 ∨
      windowCount h q y = 2) with hB | hB | hB <;>
      rw [hAx h1, hB] at hfact <;> split_ifs <;> first | omega | assumption
  · rw [h1, h2] at hfact ⊢
    rw [hAx h1, hBy h2] at hfact
    split_ifs <;> omega

/-- C8: on every toroidal grid with width, height ≥ 3 (and u32-addressable
sizes) whose only live cells form a single 2x2 block, the compute shader
writes back exactly the input value at every cell: the block is a still
life. -/
theorem C8_block_still_life (u : Uniforms) (p q x y : Nat)
    (hw : 3 ≤ u.width) (hh : 3 ≤ u.height)
    (hw2 : 2 * u.width ≤ U32) (hh2 : 2 * u.height ≤ U32)
    (hwh : u.width * u.height ≤ U32)
    (hp : p < u.width) (hq : q < u.height) (hx : x < u.width) (hy : y < u.height) :
    computeMain (blockInput u.width u.height p q) u x y
      = some (blockInput u.width u.height p q (y * u.width + x)) := by
  have hb := blockInput_le_one u.width u.height p q
  have hu : GridFits u := ⟨by omega, by omega, hw2, hh2, hwh⟩
  rw [computeMain_eq (blockInput u.width u.height p q) u hu hx hy hb]
  rw [blockInput_flat u.width u.height p q x y hx]
  exact congrArg some
    (specNext_block u.width u.height p q x y hw hh hp hq hx hy)

/-- Witness for C8: a 2x2 block anchored at (1,1) on a 4x4 torus is
reproduced unchanged at cell (2,1). -/
theorem C8_block_still_life_witness :
    computeMain (blockInput 4 4 1 1) ⟨4, 4⟩ 2 1
      = some (blockInput 4 4 1 1 (1 * 4 + 2)) :=
  C8_block_still_life ⟨4, 4⟩ 1 1 2 1 (by norm_num) (by norm_num)
    (by norm_num [U32]) (by norm_num [U32]) (by norm_num [U32])
    (by norm_num) (by norm_num) (by norm_num) (by norm_num)

/-! ### The gol-webgl.js scalar frame state machine -/

/-- `Math.floor(Math.random() * 8) + 2` from the reset branch of `render`. -/
def resetCellSize (r : ℚ) : ℤ := ⌊r * 8⌋ + 2

/-- `Math.random() * 60.0 + 120.0` from `reset()`. -/
def resetHue (r : ℚ) : ℚ := r * 60 + 120

/-- The scalar state of `GameOfLifeGL` (buffers and textures aside). -/
structure GLState where
  isPaused : Bool
  lastResetTime : Nat
  lastInfoTime : Nat
  cellSize : Int
  hue : ℚ
  width : Nat
  height : Nat

/-- What a single render callback did: whether the simulation/render step
ran and whether each wall-clock trigger fired. -/
structure TickEffects where
  stepped : Bool
  infoFired : Bool
  resetFired : Bool

/-- `resize()` of gol-webgl.js followed by the `reset()` it performs:
recompute the grid dimensions as `floor(canvas / cellSize)` and draw a new
hue; the cell buffers are reseeded (not modelled here). -/
def glResize (s : GLState) (pw ph : Nat) (rHue : ℚ) : GLState :=
  { s with
    width := pw / s.cellSize.toNat
    height := ph / s.cellSize.toNat
    hue := resetHue rHue }

/-- One invocation of the `render` callback of gol-webgl.js, scalar part:
the pause guard returns before anything else; otherwise the 5000 ms info
trigger is checked, then the 30000 ms reset trigger, then the step runs. -/
def renderTick (s : GLState) (now pw ph : Nat) (rCell rHue : ℚ) :
    GLState × TickEffects :=
  if s.isPaused then (s, ⟨false, false, false⟩)
  else
    let infoFired : Bool := decide ((now : Int) - s.lastInfoTime > 5000)
    let s1 := if infoFired then { s with lastInfoTime := now } else s
    let resetFired : Bool := decide ((now : Int) - s1.lastResetTime > 30000)
    let s2 :=
      if resetFired then
        glResize { s1 with lastResetTime := now, cellSize := resetCellSize rCell } pw ph rHue
      else s1
    (s2, ⟨true, infoFired, resetFired⟩)

/-- Each wheel event of `setupControls`: clamp `cellSize + delta` to
`[minCellSize = 1, defaultCellSize]`, with `delta = Math.sign(deltaY)`. -/
def zoomStep (dflt cs delta : Int) : Int := max 1 (min (cs + delta) dflt)

/-- A sequence of wheel events applied in order. -/
def zoomFold (dflt cs : Int) (deltas : List Int) : Int :=
  deltas.foldl (zoomStep dflt) cs

theorem zoomStep_mem (dflt c d : Int) (hd : 1 ≤ dflt) :
    1 ≤ zoomStep dflt c d ∧ zoomStep dflt c d ≤ dflt := by
  unfold zoomStep; omega

theorem zoomFold_mem (dflt : Int) (deltas : List Int) :
    ∀ cs : Int, 1 ≤ dflt → 1 ≤ cs → cs ≤ dflt →
      1 ≤ zoomFold dflt cs deltas ∧ zoomFold dflt cs deltas ≤ dflt := by
  induction deltas with
  | nil => intro cs _ h1 h2; exact ⟨h1, h2⟩
  | cons d ds ih =>
    intro cs hd h1 h2
    have hs := zoomStep_mem dflt cs d hd
    exact ih (zoomStep dflt cs d) hd hs.1 hs.2

/-- C7: starting from any `cellSizePixels` in `[1, defaultCellSize]`, each
wheel event moves it by at most one and lands inside `[1, defaultCellSize]`,
and any sequence of wheel events keeps it inside that interval. -/
theorem C7_zoom_clamp (dflt cs : Int) (deltas : List Int)
    (hd : 1 ≤ dflt) (h1 : 1 ≤ cs) (h2 : cs ≤ dflt) :
    (∀ c d : Int, 1 ≤ c → c ≤ dflt → (d = -1 ∨ d = 0 ∨ d = 1) →
      |zoomStep dflt c d - c| ≤ 1 ∧ 1 ≤ zoomStep dflt c d ∧
        zoomStep dflt c d ≤ dflt) ∧
    1 ≤ zoomFold dflt cs deltas ∧ zoomFold dflt cs deltas ≤ dflt := by
  refine ⟨?_, zoomFold_mem dflt deltas cs hd h1 h2⟩
  intro c d hc1 hc2 hd3
  have hs := zoomStep_mem dflt c d hd
  refine ⟨?_, hs⟩
  rw [abs_le]
  unfold zoomStep
  rcases hd3 with h | h | h <;> subst h <;> omega

/-- Witness for C7: from the default size 4, eleven wheel events (six
zoom-ins, five zoom-outs) stay within `[1, 4]`. -/
theorem C7_zoom_clamp_witness :
    (∀ c d : Int, 1 ≤ c → c ≤ 4 → (d = -1 ∨ d = 0 ∨ d = 1) →
      |zoomStep 4 c d - c| ≤ 1 ∧ 1 ≤ zoomStep 4 c d ∧ zoomStep 4 c d ≤ 4) ∧
    1 ≤ zoomFold 4 4 [-1, -1, -1, -1, -1, 1, 1, 1, 1, 1, 1] ∧
    zoomFold 4 4 [-1, -1, -1, -1, -1, 1, 1, 1, 1, 1, 1] ≤ 4 :=
  C7_zoom_clamp 4 4 [-1, -1, -1, -1, -1, 1, 1, 1, 1, 1, 1]
    (by norm_num) (by norm_num) (by norm_num)

/-- A sample unpaused state: timers at 0, cell size 3, hue 150, 100x100. -/
def runningState : GLState := ⟨false, 0, 0, 3, 150, 100, 100⟩

/-- The same state with the pause flag set. -/
def pausedState : GLState := ⟨true, 0, 0, 3, 150, 100, 100⟩

/-- Counterexample to C3: at 40000 ms both the 5000 ms info threshold and
the 30000 ms reset threshold are exceeded, yet in the paused state neither
trigger fires and the state is untouched - the callback returns before the
timers are evaluated. -/
theorem C3_pause_counterexample :
    ((40000 : Int) - (pausedState.lastInfoTime : Int) > 5000) ∧
    ((40000 : Int) - (pausedState.lastResetTime : Int) > 30000) ∧
    pausedState.isPaused = true ∧
    (renderTick pausedState 40000 400 400 0 0).2.infoFired = false ∧
    (renderTick pausedState 40000 400 400 0 0).2.resetFired = false ∧
    (renderTick pausedState 40000 400 400 0 0).1 = pausedState := by
  refine ⟨by norm_num [pausedState], by norm_num [pausedState], rfl, rfl, rfl, rfl⟩

/-- C3 as amended: when `paused` is true the render callback returns before
doing anything - the step is skipped and neither wall-clock trigger is
evaluated, so nothing fires and the state is unchanged; when `paused` is
false the step runs and each trigger fires exactly when its wall-clock
threshold is exceeded. -/
theorem C3_pause_semantics (s : GLState) (now pw ph : Nat) (rCell rHue : ℚ) :
    (s.isPaused = true →
      renderTick s now pw ph rCell rHue = (s, ⟨false, false, false⟩)) ∧
    (s.isPaused = false →
      (renderTick s now pw ph rCell rHue).2.stepped = true ∧
      ((renderTick s now pw ph rCell rHue).2.infoFired = true ↔
        (now : Int) - s.lastInfoTime > 5000) ∧
      ((renderTick s now pw ph rCell rHue).2.resetFired = true ↔
        (now : Int) - s.lastResetTime > 30000)) := by
  constructor
  · intro hp
    simp [renderTick, hp]
  · intro hp
    unfold renderTick
    rw [hp]
    by_cases hinfo : (now : Int) - s.lastInfoTime > 5000 <;>
      simp [hinfo]

/-- Witness for C3: the amended claim applied to the paused sample state
(left half) and to the running sample state (right half). -/
theorem C3_pause_semantics_witness :
    renderTick pausedState 40000 400 400 0 0 = (pausedState, ⟨false, false, false⟩) ∧
    ((renderTick runningState 40000 400 400 0 0).2.stepped = true ∧
      ((renderTick runningState 40000 400 400 0 0).2.infoFired = true ↔
        (40000 : Int) - runningState.lastInfoTime > 5000) ∧
      ((renderTick runningState 40000 400 400 0 0).2.resetFired = true ↔
        (40000 : Int) - runningState.lastResetTime > 30000)) :=
  ⟨(C3_pause_semantics pausedState 40000 400 400 0 0).1 rfl,
   (C3_pause_semantics runningState 40000 400 400 0 0).2 rfl⟩

/-- When the callback is not paused and the 30000 ms threshold is exceeded,
the reset branch runs: it stores `floor(random*8)+2` as the cell size and
`resize()`/`reset()` store a fresh hue `random*60+120`. -/
theorem renderTick_reset (s : GLState) (now pw ph : Nat) (rCell rHue : ℚ)
    (hpause : s.isPaused = false)
    (hfire : (now : Int) - s.lastResetTime > 30000) :
    (renderTick s now pw ph rCell rHue).2.resetFired = true ∧
    (renderTick s now pw ph rCell rHue).1.cellSize = resetCellSize rCell ∧
    (renderTick s now pw ph rCell rHue).1.hue = resetHue rHue := by
  unfold renderTick
  rw [hpause]
  by_cases hinfo : (now : Int) - s.lastInfoTime > 5000 <;>
    simp [hinfo, hfire, glResize]

theorem resetCellSize_mem (r : ℚ) (h0 : 0 ≤ r) (h1 : r < 1) :
    2 ≤ resetCellSize r ∧ resetCellSize r ≤ 9 := by
  unfold resetCellSize
  have hf0 : (0 : Int) ≤ ⌊r * 8⌋ := Int.floor_nonneg.mpr (by positivity)
  have hf1 : ⌊r * 8⌋ < 8 := by
    rw [Int.floor_lt]
    push_cast
    nlinarith
  omega

theorem resetHue_mem (r : ℚ) (h0 : 0 ≤ r) (h1 : r < 1) :
    120 ≤ resetHue r ∧ resetHue r < 180 := by
  unfold resetHue
  constructor <;> nlinarith

/-- C4: whenever the 30000 ms reset trigger fires, the new cell size equals
`floor(random*8)+2` and lies in `[2, 9]`, and a new hue `random*60+120` in
`[120, 180)` is selected as part of the triggered resize-and-reseed. -/
theorem C4_reset_selects (s : GLState) (now pw ph : Nat) (rCell rHue : ℚ)
    (hpause : s.isPaused = false)
    (hfire : (now : Int) - s.lastResetTime > 30000)
    (hc0 : 0 ≤ rCell) (hc1 : rCell < 1) (hh0 : 0 ≤ rHue) (hh1 : rHue < 1) :
    (renderTick s now pw ph rCell rHue).2.resetFired = true ∧
    (renderTick s now pw ph rCell rHue).1.cellSize = resetCellSize rCell ∧
    2 ≤ (renderTick s now pw ph rCell rHue).1.cellSize ∧
    (renderTick s now pw ph rCell rHue).1.cellSize ≤ 9 ∧
    (renderTick s now pw ph rCell rHue).1.hue = resetHue rHue ∧
    120 ≤ (renderTick s now pw ph rCell rHue).1.hue ∧
    (renderTick s now pw ph rCell rHue).1.hue < 180 := by
  obtain ⟨hfired, hcs, hhue⟩ := renderTick_reset s now pw ph rCell rHue hpause hfire
  obtain ⟨hb1, hb2⟩ := resetCellSize_mem rCell hc0 hc1
  obtain ⟨hb3, hb4⟩ := resetHue_mem rHue hh0 hh1
  rw [hcs, hhue]
  exact ⟨hfired, rfl, hb1, hb2, rfl, hb3, hb4⟩

/-- Witness for C4: in the running sample state at 40000 ms with
random values 15/16 and 1/2, the reset fires and the ranges hold. -/
theorem C4_reset_selects_witness :
    (renderTick runningState 40000 400 400 (15/16) (1/2)).2.resetFired = true ∧
    (renderTick runningState 40000 400 400 (15/16) (1/2)).1.cellSize
      = resetCellSize (15/16) ∧
    2 ≤ (renderTick runningState 40000 400 400 (15/16) (1/2)).1.cellSize ∧
    (renderTick runningState 40000 400 400 (15/16) (1/2)).1.cellSize ≤ 9 ∧
    (renderTick runningState 40000 400 400 (15/16) (1/2)).1.hue = resetHue (1/2) ∧
    120 ≤ (renderTick runningState 40000 400 400 (15/16) (1/2)).1.hue ∧
    (renderTick runningState 40000 400 400 (15/16) (1/2)).1.hue < 180 :=
  C4_reset_selects runningState 40000 400 400 (15/16) (1/2) rfl
    (by norm_num [runningState]) (by norm_num) (by norm_num)
    (by norm_num) (by norm_num)

/-- C9: the reset branch assigns `floor(random*8)+2` without consulting
`defaultCellSize` (4): from a state whose cell size obeys the zoom clamp
`[1, 4]`, a reset with random value 15/16 yields cell size 9 > 4, so the
zoom interval is not preserved by the reset. -/
theorem C9_reset_ignores_zoom_clamp :
    (0 : ℚ) ≤ 15/16 ∧ (15/16 : ℚ) < 1 ∧
    1 ≤ runningState.cellSize ∧ runningState.cellSize ≤ 4 ∧
    (renderTick runningState 40000 400 400 (15/16) (1/2)).1.cellSize = 9 ∧
    ¬((renderTick runningState 40000 400 400 (15/16) (1/2)).1.cellSize ≤ 4) := by
  obtain ⟨-, hcs, -⟩ :=
    renderTick_reset runningState 40000 400 400 (15/16) (1/2) rfl
      (by norm_num [runningState])
  have h9 : resetCellSize (15/16) = 9 := by
    unfold resetCellSize
    have hf : ⌊(15/16 : ℚ) * 8⌋ = 7 := by
      rw [Int.floor_eq_iff]
      norm_num
    omega
  refine ⟨by norm_num, by norm_num, by norm_num [runningState],
    by norm_num [runningState], ?_, ?_⟩
  · rw [hcs, h9]
  · rw [hcs, h9]; norm_num

/-- Counterexample to C6: a 2x2-pixel viewport with cell size 3 yields grid
width `floor(2/3) = 0`; no clamping to 1 happens anywhere in `resize`. -/
theorem C6_resize_counterexample :
    (glResize runningState 2 2 0).width = 0 ∧
    ¬(1 ≤ (glResize runningState 2 2 0).width) := by
  have h : (glResize runningState 2 2 0).width = 0 := rfl
  exact ⟨h, by rw [h]; omega⟩

/-- C6 as amended: on every resize the new dimensions are exactly
`floor(pixelSize / cellSizePixels)` with no clamping, so a viewport smaller
than one cell produces a dimension of 0 (not a 1x1 grid). -/
theorem C6_resize_dims (s : GLState) (pw ph : Nat) (r : ℚ)
    (hcs : 1 ≤ s.cellSize) :
    (glResize s pw ph r).width = ⌊(pw : ℚ) / (s.cellSize : ℚ)⌋₊ ∧
    (glResize s pw ph r).height = ⌊(ph : ℚ) / (s.cellSize : ℚ)⌋₊ ∧
    ((pw : Int) < s.cellSize → (glResize s pw ph r).width = 0) := by
  have hnn : (0 : Int) ≤ s.cellSize := by omega
  have hcast : ((s.cellSize.toNat : Nat) : ℚ) = (s.cellSize : ℚ) := by
    exact_mod_cast congrArg (fun z : Int => (z : ℚ)) (Int.toNat_of_nonneg hnn)
  refine ⟨?_, ?_, ?_⟩
  · show pw / s.cellSize.toNat = _
    rw [← hcast, Nat.floor_div_eq_div]
  · show ph / s.cellSize.toNat = _
    rw [← hcast, Nat.floor_div_eq_div]
  · intro hlt
    show pw / s.cellSize.toNat = 0
    apply Nat.div_eq_of_lt
    omega

/-- Witness for C6: with cell size 3 a 7x2-pixel canvas resizes to a
2x0 grid. -/
theorem C6_resize_dims_witness :
    (glResize runningState 7 2 0).width = ⌊(7 : ℚ) / ((runningState.cellSize : Int) : ℚ)⌋₊ ∧
    (glResize runningState 7 2 0).height = ⌊(2 : ℚ) / ((runningState.cellSize : Int) : ℚ)⌋₊ ∧
    ((7 : Int) < runningState.cellSize → (glResize runningState 7 2 0).width = 0) :=
  C6_resize_dims runningState 7 2 0 (by norm_num [runningState])

/-! ### Renderer colors (claim C5) -/

/-- GLSL `mod(x, y) = x - y * floor(x / y)`. -/
def glslMod (a b : ℚ) : ℚ := a - b * ⌊a / b⌋

/-- GLSL/WGSL `fract(x) = x - floor(x)`. -/
def fract (a : ℚ) : ℚ := a - ⌊a⌋

/-- `hsl2rgb` from the gol-webgl.js render shader:
`c = (1 - |2l - 1|) s`, `x = c (1 - |mod(h/60, 2) - 1|)`, `m = l - c/2`,
six sectors by 60-degree bands. -/
def hsl2rgb (h s l : ℚ) : ℚ × ℚ × ℚ :=
  let c := (1 - |2 * l - 1|) * s
  let x := c * (1 - |glslMod (h / 60) 2 - 1|)
  let m := l - c / 2
  let rgb :=
    if h < 60 then (c, x, (0 : ℚ))
    else if h < 120 then (x, c, (0 : ℚ))
    else if h < 180 then ((0 : ℚ), c, x)
    else if h < 240 then ((0 : ℚ), x, c)
    else if h < 300 then (x, (0 : ℚ), c)
    else (c, (0 : ℚ), x)
  (rgb.1 + m, rgb.2.1 + m, rgb.2.2 + m)

/-- `hsl2rgb` from the WebGPU fallback variant (part_000), identical except
that the secondary component uses `fract(h/60) * 2` where the standard
formula has `mod(h/60, 2)`. -/
def hsl2rgbFract (h s l : ℚ) : ℚ × ℚ × ℚ :=
  let c := (1 - |2 * l - 1|) * s
  let x := c * (1 - |fract (h / 60) * 2 - 1|)
  let m := l - c / 2
  let rgb :=
    if h < 60 then (c, x, (0 : ℚ))
    else if h < 120 then (x, c, (0 : ℚ))
    else if h < 180 then ((0 : ℚ), c, x)
    else if h < 240 then ((0 : ℚ), x, c)
    else if h < 300 then (x, (0 : ℚ), c)
    else (c, (0 : ℚ), x)
  (rgb.1 + m, rgb.2.1 + m, rgb.2.2 + m)

/-- Modelled from the spec: the standard six-sector HSL to RGB conversion
with chroma `C = (1 - |2L - 1|) S`, secondary
`X = C (1 - |((H/60) mod 2) - 1|)` and match value `m = L - C/2`. -/
def hslStandard (h s l : ℚ) : ℚ × ℚ × ℚ :=
  let c := (1 - |2 * l - 1|) * s
  let x := c * (1 - |glslMod (h / 60) 2 - 1|)
  let m := l - c / 2
  let rgb :=
    if h < 60 then (c, x, (0 : ℚ))
    else if h < 120 then (x, c, (0 : ℚ))
    else if h < 180 then ((0 : ℚ), c, x)
    else if h < 240 then ((0 : ℚ), x, c)
    else if h < 300 then (x, (0 : ℚ), c)
    else (c, (0 : ℚ), x)
  (rgb.1 + m, rgb.2.1 + m, rgb.2.2 + m)

/-- The fragment output of the gol-webgl.js render shader: alive cells get
`hsl2rgb(hue, 0.8, 0.4)`, dead cells get black. -/
def webglFragColor (alive : Bool) (hue : ℚ) : ℚ × ℚ × ℚ :=
  if alive then hsl2rgb hue (4/5) (2/5) else (0, 0, 0)

/-- The fragment output of the WebGPU fallback variant (part_000): alive
cells get `hsl2rgb(hue, 0.8, 0.4)` with the `fract` formula, dead cells get
dark gray (0.1, 0.1, 0.1). -/
def wgpuFragColor (alive : Bool) (hue : ℚ) : ℚ × ℚ × ℚ :=
  if alive then hsl2rgbFract hue (4/5) (2/5) else (1/10, 1/10, 1/10)

/-- The fragment output of gol.js: fixed colors, no use of the hue. -/
def wgpuFixedFragColor (alive : Bool) : ℚ × ℚ × ℚ :=
  if alive then (0, 4/5, 2/5) else (1/10, 1/10, 1/10)

theorem glslMod_150 : glslMod ((150 : ℚ) / 60) 2 = 1/2 := by
  unfold glslMod
  rw [show ((150 : ℚ) / 60 / 2) = 5/4 by norm_num]
  rw [show ⌊(5/4 : ℚ)⌋ = 1 from by rw [Int.floor_eq_iff]; norm_num]
  norm_num

theorem fract_150 : fract ((150 : ℚ) / 60) = 1/2 := by
  unfold fract
  rw [show ((150 : ℚ) / 60) = 5/2 by norm_num]
  rw [show ⌊(5/2 : ℚ)⌋ = 2 from by rw [Int.floor_eq_iff]; norm_num]
  norm_num

theorem hslStandard_150 : hslStandard 150 (4/5) (2/5) = (2/25, 18/25, 2/5) := by
  unfold hslStandard
  rw [glslMod_150]
  rw [show |2 * (2/5 : ℚ) - 1| = 1/5 from by
    rw [show (2 * (2/5 : ℚ) - 1) = -(1/5) by norm_num, abs_neg,
      abs_of_nonneg (by norm_num : (0 : ℚ) ≤ 1/5)]]
  rw [show |(1/2 : ℚ) - 1| = 1/2 from by
    rw [show ((1/2 : ℚ) - 1) = -(1/2) by norm_num, abs_neg,
      abs_of_nonneg (by norm_num : (0 : ℚ) ≤ 1/2)]]
  norm_num

theorem hsl2rgbFract_150 : hsl2rgbFract 150 (4/5) (2/5) = (2/25, 18/25, 18/25) := by
  unfold hsl2rgbFract
  rw [fract_150]
  rw [show |2 * (2/5 : ℚ) - 1| = 1/5 from by
    rw [show (2 * (2/5 : ℚ) - 1) = -(1/5) by norm_num, abs_neg,
      abs_of_nonneg (by norm_num : (0 : ℚ) ≤ 1/5)]]
  rw [show |(1/2 : ℚ) * 2 - 1| = 0 from by norm_num]
  norm_num

/-- Counterexample to C5: the gol-webgl.js renderer colors dead cells black
(0,0,0), not (0.1, 0.1, 0.1); the part_000 renderer colors an alive cell at
hue 150 with (2/25, 18/25, 18/25), not the standard-formula value
(2/25, 18/25, 2/5); and the gol.js renderer ignores the hue entirely. -/
theorem C5_render_colors_counterexample :
    webglFragColor false 150 ≠ (1/10, 1/10, 1/10) ∧
    wgpuFragColor true 150 ≠ hslStandard 150 (4/5) (2/5) ∧
    wgpuFixedFragColor true ≠ hslStandard 150 (4/5) (2/5) := by
  refine ⟨?_, ?_, ?_⟩
  · show ((0 : ℚ), (0 : ℚ), (0 : ℚ)) ≠ (1/10, 1/10, 1/10)
    simp only [ne_eq, Prod.mk.injEq, not_and]
    intro h
    norm_num at h
  · show hsl2rgbFract 150 (4/5) (2/5) ≠ _
    rw [hsl2rgbFract_150, hslStandard_150]
    simp only [ne_eq, Prod.mk.injEq, not_and]
    intro _ _
    norm_num
  · show ((0 : ℚ), (4/5 : ℚ), (2/5 : ℚ)) ≠ _
    rw [hslStandard_150]
    simp only [ne_eq, Prod.mk.injEq, not_and]
    intro h
    norm_num at h

/-- C5 as amended: the gol-webgl.js renderer maps dead cells to black
(0,0,0) and alive cells to the standard six-sector HSL formula at
(hue, 0.8, 0.4); the part_000 renderer maps dead cells to (0.1, 0.1, 0.1)
and alive cells to the variant formula with `fract(h/60)*2` in place of
`(h/60) mod 2`; each mapping is a function of (aliveFlag, hue) alone. -/
theorem C5_render_colors (alive : Bool) (hue : ℚ) :
    webglFragColor alive hue
      = (if alive then hslStandard hue (4/5) (2/5) else (0, 0, 0)) ∧
    wgpuFragColor alive hue
      = (if alive then hsl2rgbFract hue (4/5) (2/5) else (1/10, 1/10, 1/10)) := by
  cases alive <;> exact ⟨rfl, rfl⟩
